import Mathlib

/-!
Verification of the retrieval and aggregation pipeline of the gov-meeting-rag
service (`src/app/main.py`): the `/search` chunk path (grouping by document
URL, per-document scoring, ranking, truncation), the `/summary_search` path,
request validation, and the local embedding fallback.

External capabilities (the embedding provider and the vector datastore) are
passed to the modelled endpoints as oracles: an `Except` value holding either
the value the capability returned or the exception it raised.  Similarity
scores are modelled as rationals; the local embedding, which divides by a
Euclidean norm, is modelled over the reals.
-/

namespace GovRag

/-- A calendar date as stored in the `meeting_metadata.date` column. -/
structure Date where
  year : Nat
  month : Nat
  day : Nat
deriving DecidableEq

/-- Zero-pad a numeral to two digits. -/
def pad2 (n : Nat) : String :=
  if n < 10 then "0" ++ toString n else toString n

/-- Zero-pad a numeral to four digits. -/
def pad4 (n : Nat) : String :=
  if n < 10 then "000" ++ toString n
  else if n < 100 then "00" ++ toString n
  else if n < 1000 then "0" ++ toString n
  else toString n

/-- Python's `date.isoformat()`: the ISO-8601 rendering `YYYY-MM-DD`. -/
def Date.isoformat (d : Date) : String :=
  pad4 d.year ++ "-" ++ pad2 d.month ++ "-" ++ pad2 d.day

/-- One raw row fetched by either similarity query
(`SELECT m.url, m.council_name, m.date, c.chunk_text / s.summary, 1 - (embedding <=> qv) AS score`):
positions 0‥4 of the SQL row.  `date` and `score` are nullable columns. -/
structure Row where
  url : String
  council_name : String
  date : Option Date
  text_span : String
  score : Option ℚ
deriving DecidableEq

/-- Line 131: `score_val = float(r[4]) if r[4] is not None else 0.0`. -/
def scoreVal (r : Row) : ℚ := r.score.getD 0

/-- Python's `str.strip()`: remove leading and trailing whitespace. -/
def pyStrip (s : String) : String :=
  ⟨((s.data.dropWhile Char.isWhitespace).reverse.dropWhile Char.isWhitespace).reverse⟩

/-- One entry of the `grouped_results` dict (lines 128–142): the per-URL
accumulator whose `_scores` and `_chunks` lists are appended in row order.
The `date` field already holds the rendered ISO string (line 136). -/
structure Group where
  url : String
  council_name : String
  date : Option String
  scores : List ℚ
  chunks : List String
deriving DecidableEq

/-- Insert one row into the insertion-ordered group list (lines 130–142): when a
group with the row's `url` exists its score and chunk are appended, otherwise a
fresh group is appended at the end — Python dicts preserve insertion order. -/
def addToGroups : List Group → Row → List Group
  | [], r => [⟨r.url, r.council_name, r.date.map Date.isoformat, [scoreVal r], [r.text_span]⟩]
  | g :: gs, r =>
      if r.url = g.url then
        ⟨g.url, g.council_name, g.date, g.scores ++ [scoreVal r], g.chunks ++ [r.text_span]⟩ :: gs
      else
        g :: addToGroups gs r

/-- Lines 128–142: group all fetched rows by `url`, in first-occurrence order. -/
def groupRows (rows : List Row) : List Group :=
  rows.foldl addToGroups []

/-- Denotation of `max(range(match_count), key=lambda i: scores[i])` (line 150):
the index of a maximal score.  Python's `max` returns the first maximal element
encountered, so an exact tie is broken in favour of the smallest index. -/
def pyMaxIdx : List ℚ → Nat
  | [] => 0
  | [_] => 0
  | s :: t :: rest =>
      if s < (t :: rest).getD (pyMaxIdx (t :: rest)) 0 then pyMaxIdx (t :: rest) + 1 else 0

/-- One element of the `/search` response (lines 153–160). -/
structure ChunkItem where
  url : String
  council_name : String
  date : Option String
  chunk_text : Option String
  score : Option ℚ
  match_count : Nat
deriving DecidableEq

/-- Lines 145–160: turn one finished group into its response item:
`match_count = len(scores)`; `avg_score = sum(scores)/match_count if match_count else 0.0`;
`best_idx = max(range(match_count), key=lambda i: scores[i]) if match_count else None`;
`best_chunk = chunks[best_idx] if best_idx is not None else None`;
the emitted `score` is `avg_score if match_count else None`. -/
def finalizeGroup (g : Group) : ChunkItem :=
  let match_count := g.scores.length
  let avg_score : ℚ := if match_count ≠ 0 then g.scores.sum / match_count else 0
  let best_chunk : Option String :=
    if match_count ≠ 0 then some (g.chunks.getD (pyMaxIdx g.scores) "") else none
  ⟨g.url, g.council_name, g.date, best_chunk,
    if match_count ≠ 0 then some avg_score else none, match_count⟩

/-- Python `x or d` on a nullable float: `None` and `0.0` are falsy. -/
def pyOr (x : Option ℚ) (d : ℚ) : ℚ :=
  match x with
  | none => d
  | some v => if v = 0 then d else v

/-- The sort key of line 162: `(-item["match_count"], -(item["score"] or 0.0))`. -/
def sortKey (it : ChunkItem) : Int × ℚ :=
  (-(it.match_count : Int), -(pyOr it.score 0))

/-- Ascending lexicographic comparison of sort keys, as Python compares tuples. -/
def keyLE (a b : ChunkItem) : Prop :=
  (sortKey a).1 < (sortKey b).1 ∨
    ((sortKey a).1 = (sortKey b).1 ∧ (sortKey a).2 ≤ (sortKey b).2)

instance : DecidableRel keyLE := fun a b => by
  unfold keyLE; infer_instance

instance : IsTotal ChunkItem keyLE := by
  constructor
  intro a b
  rcases lt_trichotomy (sortKey a).1 (sortKey b).1 with h | h | h
  · exact Or.inl (Or.inl h)
  · rcases le_total (sortKey a).2 (sortKey b).2 with h2 | h2
    · exact Or.inl (Or.inr ⟨h, h2⟩)
    · exact Or.inr (Or.inr ⟨h.symm, h2⟩)
  · exact Or.inr (Or.inl h)

instance : IsTrans ChunkItem keyLE := by
  constructor
  rintro a b c (h1 | ⟨h1, h1'⟩) (h2 | ⟨h2, h2'⟩)
  · exact Or.inl (h1.trans h2)
  · exact Or.inl (h2 ▸ h1)
  · exact Or.inl (h1 ▸ h2)
  · exact Or.inr ⟨h1.trans h2, h1'.trans h2'⟩

/-- Line 162: `unique_results.sort(key=lambda item: (-match_count, -(score or 0.0)))` —
Python's `list.sort` is a stable ascending sort by the key (i.e. descending by
(match_count, score)); modelled by stable insertion sort. -/
def rankItems (items : List ChunkItem) : List ChunkItem :=
  List.insertionSort keyLE items

/-- The request body: pydantic model `query : str`, `top_k : int = 5`,
`ministry : Optional[str]`.  `top_k = none` models an absent field; the pydantic
attribute then evaluates to the default 5, and `"top_k" in req.__fields_set__`
is `top_k.isSome`. -/
structure SearchRequest where
  query : String
  top_k : Option Int
  ministry : Option String

/-- `"top_k" in req.__fields_set__` (line 95). -/
def SearchRequest.has_top_k (req : SearchRequest) : Bool := req.top_k.isSome

/-- The pydantic attribute `req.top_k` (the default 5 when the caller omitted it). -/
def SearchRequest.top_k_value (req : SearchRequest) : Int := req.top_k.getD 5

/-- Lines 95–98: `requested_top_k = req.top_k if has_top_k else 5`;
`final_top_k = requested_top_k if requested_top_k and requested_top_k > 0 else 5`;
`final_top_k = max(1, min(20, final_top_k))`.  A Python `int` is truthy iff nonzero. -/
def finalTopK (req : SearchRequest) : Int :=
  let requested_top_k := if req.has_top_k then req.top_k_value else 5
  let f := if requested_top_k ≠ 0 ∧ requested_top_k > 0 then requested_top_k else 5
  max 1 (min 20 f)

/-- Lines 99–100: `fetch_limit = final_top_k * 5 if has_top_k else 5 * 5`;
`fetch_limit = max(fetch_limit, final_top_k)`. -/
def fetchLimit (req : SearchRequest) : Int :=
  let fl := if req.has_top_k then finalTopK req * 5 else 5 * 5
  max fl (finalTopK req)

/-- An error surfaced by an endpoint: an explicit `HTTPException(status, detail)`,
or an exception that escapes the handler body (which FastAPI reports to the
caller as a 500 server error). -/
inductive HErr where
  | http (status : Nat) (detail : String)
  | unhandled (msg : String)
deriving DecidableEq

/-- The HTTP status the caller observes: an `HTTPException` keeps its status
code; an unhandled exception is reported as 500. -/
def HErr.statusCode : HErr → Nat
  | .http s _ => s
  | .unhandled _ => 500

/-- Which external capabilities a request actually invoked, and the LIMIT value
bound into the SQL when the datastore was queried. -/
structure CallTrace where
  embedCalled : Bool
  dbCalled : Bool
  dbLimit : Option Int
deriving DecidableEq

/-- The `/search` endpoint (lines 91–163).  The external capabilities are passed
as oracles: `embedRes` is the outcome of `provider.embed([req.query])[0]`
(`error e` = the exception it raised) and `dbRes` the outcome of the chunk
query's `fetchall()`.  Neither call sits in a `try`, so a raised exception
escapes the handler.  Returns the response or error together with the trace of
capability invocations. -/
def search (req : SearchRequest) (embedRes : Except String (List ℚ))
    (dbRes : Except String (List Row)) :
    Except HErr (List ChunkItem) × CallTrace :=
  if req.query = "" ∨ pyStrip req.query = "" then
    (.error (.http 400 "query is required"), ⟨false, false, none⟩)
  else
    match embedRes with
    | .error e => (.error (.unhandled e), ⟨true, false, none⟩)
    | .ok _vec =>
        match dbRes with
        | .error e => (.error (.unhandled e), ⟨true, true, some (fetchLimit req)⟩)
        | .ok rows =>
            (.ok ((rankItems ((groupRows rows).map finalizeGroup)).take (finalTopK req).toNat),
              ⟨true, true, some (fetchLimit req)⟩)

/-- One element of the `/summary_search` response (lines 205–215). -/
structure SummaryItem where
  url : String
  council_name : String
  date : Option String
  summary : String
  score : Option ℚ
deriving DecidableEq

/-- Lines 206–215: map one summary row to a response item;
`score = float(r[4]) if r[4] is not None else None`. -/
def summaryItem (r : Row) : SummaryItem :=
  ⟨r.url, r.council_name, r.date.map Date.isoformat, r.text_span, r.score⟩

/-- Line 170: `top_k = max(1, min(100, req.top_k or 5))`; `x or 5` falls back to 5
exactly when the attribute value is 0. -/
def summaryTopK (req : SearchRequest) : Int :=
  max 1 (min 100 (if req.top_k_value = 0 then 5 else req.top_k_value))

/-- The `/summary_search` endpoint (lines 166–216), oracles as in `search`.
An embedding failure is caught and re-raised as
`HTTPException(500, "embedding failed: ...")` (lines 172–176); a datastore
failure as `HTTPException(500, "db query failed: ...")` (lines 191–203). -/
def summary_search (req : SearchRequest) (embedRes : Except String (List ℚ))
    (dbRes : Except String (List Row)) :
    Except HErr (List SummaryItem) × CallTrace :=
  if req.query = "" ∨ pyStrip req.query = "" then
    (.error (.http 400 "query is required"), ⟨false, false, none⟩)
  else
    match embedRes with
    | .error e => (.error (.http 500 ("embedding failed: " ++ e)), ⟨true, false, none⟩)
    | .ok _vec =>
        match dbRes with
        | .error e =>
            (.error (.http 500 ("db query failed: " ++ e)), ⟨true, true, some (summaryTopK req)⟩)
        | .ok rows =>
            (.ok (rows.map summaryItem), ⟨true, true, some (summaryTopK req)⟩)

/-- The non-blank-query condition of lines 93 and 168, in the form the model tests. -/
def queryOk (req : SearchRequest) : Prop :=
  ¬(req.query = "" ∨ pyStrip req.query = "")

instance (req : SearchRequest) : Decidable (queryOk req) := by
  unfold queryOk; infer_instance

/-- The per-text loop body of `SimpleLocalEmbed.embed` (lines 43–48), with the
pseudo-random draws abstracted: `gen t i` is the i-th value of
`random.Random(abs(hash(t))).uniform(-1.0, 1.0)` for text `t` (string hashing is
salted per process, so the draw stream is an environment parameter of the
model).  Draw `dim` values, compute the Euclidean norm, replace a zero norm by 1
(`math.sqrt(...) or 1.0`), and divide every component by it. -/
noncomputable def embedOne (dim : Nat) (gen : String → Nat → ℝ) (t : String) : List ℝ :=
  let vec := (List.range dim).map (gen t)
  let norm := Real.sqrt ((vec.map fun x => x * x).sum)
  let norm' := if norm = 0 then 1 else norm
  vec.map fun x => x / norm'

/-- `SimpleLocalEmbed.embed` (lines 40–49): one output vector per input text, in
order. -/
noncomputable def SimpleLocalEmbed.embed (dim : Nat) (gen : String → Nat → ℝ)
    (texts : List String) : List (List ℝ) :=
  texts.map (embedOne dim gen)

/-! ### Helper lemmas -/

theorem finalTopK_pos (req : SearchRequest) : 1 ≤ finalTopK req := by
  simp only [finalTopK]
  split_ifs <;> omega

theorem finalTopK_le_twenty (req : SearchRequest) : finalTopK req ≤ 20 := by
  simp only [finalTopK]
  split_ifs <;> omega

theorem summaryTopK_pos (req : SearchRequest) : 1 ≤ summaryTopK req := by
  simp only [summaryTopK]
  split_ifs <;> omega

theorem summaryTopK_le_hundred (req : SearchRequest) : summaryTopK req ≤ 100 := by
  simp only [summaryTopK]
  split_ifs <;> omega

theorem fetchLimit_eq_of_has_top_k (req : SearchRequest) (h : req.has_top_k = true) :
    fetchLimit req = finalTopK req * 5 := by
  have h1 := finalTopK_pos req
  simp only [fetchLimit]
  rw [if_pos h]
  omega

theorem fetchLimit_eq_of_no_top_k (req : SearchRequest) (h : req.has_top_k = false) :
    fetchLimit req = 25 ∧ finalTopK req = 5 := by
  have h5 : finalTopK req = 5 := by
    unfold finalTopK
    rw [h]
    norm_num
  refine ⟨?_, h5⟩
  simp only [fetchLimit]
  rw [h, h5]
  norm_num

theorem finalTopK_le_fetchLimit (req : SearchRequest) : finalTopK req ≤ fetchLimit req := by
  simp only [fetchLimit]
  omega

theorem search_eq_of_ok (req : SearchRequest) (v : List ℚ) (rows : List Row)
    (h : queryOk req) :
    search req (.ok v) (.ok rows) =
      (.ok ((rankItems ((groupRows rows).map finalizeGroup)).take (finalTopK req).toNat),
        ⟨true, true, some (fetchLimit req)⟩) := by
  unfold search
  rw [if_neg h]

/-! ### Claims -/

/-- C4: for every caller-supplied `top_k` (negative, zero, or absent), the resolved
final top-k lies in [1, 20] on the chunk path and in [1, 100] on the summary path;
on the chunk path a supplied positive `top_k` is used, otherwise the default 5 is
used, and the result is clamped into [1, 20]. -/
theorem c4_top_k_clamping (req : SearchRequest) :
    (1 ≤ finalTopK req ∧ finalTopK req ≤ 20) ∧
    (1 ≤ summaryTopK req ∧ summaryTopK req ≤ 100) ∧
    (∀ t : Int, req.top_k = some t → 0 < t → finalTopK req = max 1 (min 20 t)) ∧
    (∀ t : Int, req.top_k = some t → t ≤ 0 → finalTopK req = 5) ∧
    (req.top_k = none → finalTopK req = 5) := by
  refine ⟨⟨finalTopK_pos req, finalTopK_le_twenty req⟩,
    ⟨summaryTopK_pos req, summaryTopK_le_hundred req⟩, ?_, ?_, ?_⟩
  · intro t ht hpos
    simp only [finalTopK, SearchRequest.has_top_k, SearchRequest.top_k_value, ht,
      Option.isSome_some, if_true, Option.getD_some]
    rw [if_pos ⟨by omega, hpos⟩]
  · intro t ht hneg
    simp only [finalTopK, SearchRequest.has_top_k, SearchRequest.top_k_value, ht,
      Option.isSome_some, if_true, Option.getD_some]
    rw [if_neg (by omega)]
    omega
  · intro ht
    simp only [finalTopK, SearchRequest.has_top_k, SearchRequest.top_k_value, ht,
      Option.isSome_none, Bool.false_eq_true, if_false]
    split_ifs <;> omega

/-- Witness for C4 at concrete requests: a positive supplied `top_k` is clamped, a
negative one and an absent one both resolve to 5, and the summary clamp holds. -/
theorem c4_top_k_clamping_witness :
    finalTopK ⟨"q", some 7, none⟩ = max 1 (min 20 7) ∧
    finalTopK ⟨"q", some (-3), none⟩ = 5 ∧
    finalTopK ⟨"q", none, none⟩ = 5 ∧
    1 ≤ summaryTopK ⟨"q", some (-3), none⟩ ∧ summaryTopK ⟨"q", some (-3), none⟩ ≤ 100 :=
  ⟨(c4_top_k_clamping ⟨"q", some 7, none⟩).2.2.1 7 rfl (by norm_num),
   (c4_top_k_clamping ⟨"q", some (-3), none⟩).2.2.2.1 (-3) rfl (by norm_num),
   (c4_top_k_clamping ⟨"q", none, none⟩).2.2.2.2 rfl,
   (c4_top_k_clamping ⟨"q", some (-3), none⟩).2.1.1,
   (c4_top_k_clamping ⟨"q", some (-3), none⟩).2.1.2⟩

/-- C5: `fetch_limit` equals `final_top_k * 5` when the caller supplied `top_k` and 25
when it is absent, and is always at least `final_top_k`; the `/search` response is
truncated to at most `final_top_k` items, so with `top_k` omitted the datastore is
queried with LIMIT 25 and at most 5 results are returned. -/
theorem c5_fetch_limit (req : SearchRequest) (v : List ℚ) (rows : List Row) :
    (req.has_top_k = true → fetchLimit req = finalTopK req * 5) ∧
    (req.has_top_k = false → fetchLimit req = 25) ∧
    finalTopK req ≤ fetchLimit req ∧
    (∀ items tr, search req (.ok v) (.ok rows) = (.ok items, tr) →
      (items.length : Int) ≤ finalTopK req ∧ tr.dbLimit = some (fetchLimit req)) ∧
    (req.top_k = none → ∀ items tr, search req (.ok v) (.ok rows) = (.ok items, tr) →
      tr.dbLimit = some 25 ∧ items.length ≤ 5) := by
  have hmain : ∀ items tr, search req (.ok v) (.ok rows) = (.ok items, tr) →
      (items.length : Int) ≤ finalTopK req ∧ tr.dbLimit = some (fetchLimit req) := by
    intro items tr h
    by_cases hq : queryOk req
    · rw [search_eq_of_ok req v rows hq] at h
      have h1 : ((rankItems ((groupRows rows).map finalizeGroup)).take (finalTopK req).toNat)
          = items := by
        have := congrArg Prod.fst h
        simpa using this
      have h2 : (⟨true, true, some (fetchLimit req)⟩ : CallTrace) = tr := congrArg Prod.snd h
      constructor
      · rw [← h1]
        have hlen := List.length_take_le (finalTopK req).toNat
          (rankItems ((groupRows rows).map finalizeGroup))
        have hpos := finalTopK_pos req
        omega
      · rw [← h2]
    · unfold search at h
      rw [if_pos (not_not.mp hq)] at h
      have hfst := congrArg Prod.fst h
      simp at hfst
  refine ⟨fetchLimit_eq_of_has_top_k req, ?_, finalTopK_le_fetchLimit req, hmain, ?_⟩
  · intro h
    exact (fetchLimit_eq_of_no_top_k req h).1
  · intro hnone items tr h
    have hh : req.has_top_k = false := by
      simp [SearchRequest.has_top_k, hnone]
    obtain ⟨h25, h5⟩ := fetchLimit_eq_of_no_top_k req hh
    obtain ⟨hl, hd⟩ := hmain items tr h
    refine ⟨by rw [hd, h25], by omega⟩

/-- Witness for C5: with `top_k` omitted and six same-scored rows over six distinct
documents, the datastore LIMIT is 25 and only 5 items come back. -/
theorem c5_fetch_limit_witness :
    CallTrace.dbLimit ⟨true, true, some 25⟩ = some 25 ∧
    ([⟨"u0", "c", none, some "t", some 1, 1⟩, ⟨"u1", "c", none, some "t", some 1, 1⟩,
      ⟨"u2", "c", none, some "t", some 1, 1⟩, ⟨"u3", "c", none, some "t", some 1, 1⟩,
      ⟨"u4", "c", none, some "t", some 1, 1⟩] : List ChunkItem).length ≤ 5 :=
  (c5_fetch_limit ⟨"q", none, none⟩ [1]
    [⟨"u0", "c", none, "t", some 1⟩, ⟨"u1", "c", none, "t", some 1⟩,
     ⟨"u2", "c", none, "t", some 1⟩, ⟨"u3", "c", none, "t", some 1⟩,
     ⟨"u4", "c", none, "t", some 1⟩, ⟨"u5", "c", none, "t", some 1⟩]).2.2.2.2 rfl _ _ (by
      rw [search_eq_of_ok _ _ _ (by decide)]
      norm_num [finalTopK, fetchLimit, SearchRequest.has_top_k,
        SearchRequest.top_k_value, groupRows, addToGroups, finalizeGroup, rankItems,
        List.insertionSort, List.orderedInsert, keyLE, sortKey, pyOr, pyMaxIdx, scoreVal,
        List.take])

/-- C6: a query that is empty or whitespace-only makes both endpoints raise
`HTTPException(400, "query is required")` and neither the embedding capability nor
the datastore is invoked. -/
theorem c6_blank_query (req : SearchRequest) (e1 e2 : Except String (List ℚ))
    (d1 d2 : Except String (List Row)) (h : pyStrip req.query = "") :
    search req e1 d1 = (.error (.http 400 "query is required"), ⟨false, false, none⟩) ∧
    summary_search req e2 d2 =
      (.error (.http 400 "query is required"), ⟨false, false, none⟩) := by
  constructor
  · unfold search
    rw [if_pos (Or.inr h)]
  · unfold summary_search
    rw [if_pos (Or.inr h)]

/-- Witness for C6 at the whitespace-only query `"   "`. -/
theorem c6_blank_query_witness :
    pyStrip "   " = "" ∧
    search ⟨"   ", some 3, none⟩ (.ok [1]) (.ok []) =
      (.error (.http 400 "query is required"), ⟨false, false, none⟩) ∧
    summary_search ⟨"   ", some 3, none⟩ (.ok [1]) (.ok []) =
      (.error (.http 400 "query is required"), ⟨false, false, none⟩) :=
  ⟨rfl, (c6_blank_query ⟨"   ", some 3, none⟩ (.ok [1]) (.ok [1]) (.ok []) (.ok []) rfl).1,
    (c6_blank_query ⟨"   ", some 3, none⟩ (.ok [1]) (.ok [1]) (.ok []) (.ok []) rfl).2⟩

/-- The detail string of an embedding failure can never coincide with the detail
string of a datastore failure: their first characters differ. -/
theorem embed_detail_ne_db_detail (e e' : String) :
    "embedding failed: " ++ e ≠ "db query failed: " ++ e' := by
  intro h
  have h2 := congrArg (fun s => s.data.head?) h
  simp at h2

/-- C7: in `summary_search` an embedding failure and a datastore failure are each
reported as HTTP 500 server errors whose detail strings can never coincide (so the
caller can distinguish them), and no results are returned on either failure. -/
theorem c7_summary_error_kinds (req : SearchRequest) (h : queryOk req) :
    (∀ e d, summary_search req (.error e) d =
      (.error (.http 500 ("embedding failed: " ++ e)), ⟨true, false, none⟩)) ∧
    (∀ v e, summary_search req (.ok v) (.error e) =
      (.error (.http 500 ("db query failed: " ++ e)),
        ⟨true, true, some (summaryTopK req)⟩)) ∧
    (∀ e e', HErr.http 500 ("embedding failed: " ++ e) ≠
      HErr.http 500 ("db query failed: " ++ e')) ∧
    (∀ e d items tr, summary_search req (.error e) d ≠ (.ok items, tr)) ∧
    (∀ v e items tr, summary_search req (.ok v) (.error e) ≠ (.ok items, tr)) := by
  have h1 : ∀ (e : String) (d : Except String (List Row)), summary_search req (.error e) d =
      (.error (.http 500 ("embedding failed: " ++ e)), ⟨true, false, none⟩) := by
    intro e d
    unfold summary_search
    rw [if_neg h]
  have h2 : ∀ (v : List ℚ) (e : String), summary_search req (.ok v) (.error e) =
      (.error (.http 500 ("db query failed: " ++ e)),
        ⟨true, true, some (summaryTopK req)⟩) := by
    intro v e
    unfold summary_search
    rw [if_neg h]
  refine ⟨h1, h2, ?_, ?_, ?_⟩
  · intro e e' hc
    exact embed_detail_ne_db_detail e e' ((HErr.http.injEq _ _ _ _).mp hc).2
  · intro e d items tr hc
    rw [h1 e d] at hc
    exact absurd (congrArg Prod.fst hc) (by simp)
  · intro v e items tr hc
    rw [h2 v e] at hc
    exact absurd (congrArg Prod.fst hc) (by simp)

/-- Witness for C7 at a concrete request with a failing embedding ("boom") and a
failing datastore ("down"): both surface as 500 errors with distinct details. -/
theorem c7_summary_error_kinds_witness :
    summary_search ⟨"q", none, none⟩ (.error "boom") (.ok []) =
      (.error (.http 500 ("embedding failed: " ++ "boom")), ⟨true, false, none⟩) ∧
    summary_search ⟨"q", none, none⟩ (.ok [1]) (.error "down") =
      (.error (.http 500 ("db query failed: " ++ "down")),
        ⟨true, true, some (summaryTopK ⟨"q", none, none⟩)⟩) ∧
    HErr.http 500 ("embedding failed: " ++ "boom") ≠
      HErr.http 500 ("db query failed: " ++ "down") :=
  ⟨(c7_summary_error_kinds ⟨"q", none, none⟩ (by decide)).1 "boom" (.ok []),
   (c7_summary_error_kinds ⟨"q", none, none⟩ (by decide)).2.1 [1] "down",
   (c7_summary_error_kinds ⟨"q", none, none⟩ (by decide)).2.2.1 "boom" "down"⟩

/-- C9: in the chunk path an embedding failure propagates out of the handler and, as
in the summary path, surfaces to the caller as a 500 server error with the same call
trace (embedding invoked, datastore not); no zero vector is substituted, no datastore
query is issued, and no results are returned. -/
theorem c9_chunk_embed_failure (req : SearchRequest) (e : String)
    (d : Except String (List Row)) (h : queryOk req) :
    search req (.error e) d = (.error (.unhandled e), ⟨true, false, none⟩) ∧
    (HErr.unhandled e).statusCode = 500 ∧
    (∀ e2 d2, (summary_search req (.error e2) d2).1 =
        .error (.http 500 ("embedding failed: " ++ e2)) ∧
      (HErr.http 500 ("embedding failed: " ++ e2)).statusCode =
        (HErr.unhandled e).statusCode ∧
      (summary_search req (.error e2) d2).2 = (search req (.error e) d).2) ∧
    (∀ items tr, search req (.error e) d ≠ (.ok items, tr)) := by
  have hs : search req (.error e) d = (.error (.unhandled e), ⟨true, false, none⟩) := by
    unfold search
    rw [if_neg h]
  have hsum : ∀ (e2 : String) (d2 : Except String (List Row)),
      summary_search req (.error e2) d2 =
        (.error (.http 500 ("embedding failed: " ++ e2)), ⟨true, false, none⟩) := by
    intro e2 d2
    unfold summary_search
    rw [if_neg h]
  refine ⟨hs, rfl, ?_, ?_⟩
  · intro e2 d2
    rw [hsum e2 d2, hs]
    exact ⟨rfl, rfl, rfl⟩
  · intro items tr hc
    rw [hs] at hc
    exact absurd (congrArg Prod.fst hc) (by simp)

/-- Witness for C9 at a concrete request whose embedding raises "boom". -/
theorem c9_chunk_embed_failure_witness :
    search ⟨"q", none, none⟩ (.error "boom") (.ok []) =
      (.error (.unhandled "boom"), ⟨true, false, none⟩) ∧
    (HErr.unhandled "boom").statusCode = 500 :=
  ⟨(c9_chunk_embed_failure ⟨"q", none, none⟩ "boom" (.ok []) (by decide)).1,
   (c9_chunk_embed_failure ⟨"q", none, none⟩ "boom" (.ok []) (by decide)).2.1⟩

/-- Inserting one row adds exactly one score to the group list. -/
theorem sum_scores_addToGroups (gs : List Group) (r : Row) :
    ((addToGroups gs r).map fun g => g.scores.length).sum =
      ((gs.map fun g => g.scores.length).sum) + 1 := by
  induction gs with
  | nil => simp [addToGroups]
  | cons g gs ih =>
      by_cases h : r.url = g.url
      · simp only [addToGroups, if_pos h, List.map_cons, List.sum_cons, List.length_append,
          List.length_singleton]
        omega
      · simp only [addToGroups, if_neg h, List.map_cons, List.sum_cons, ih]
        omega

/-- Folding rows into the group list adds one score per row. -/
theorem sum_scores_foldl (rows : List Row) :
    ∀ gs : List Group, ((rows.foldl addToGroups gs).map fun g => g.scores.length).sum =
      ((gs.map fun g => g.scores.length).sum) + rows.length := by
  induction rows with
  | nil => intro gs; simp
  | cons r rest ih =>
      intro gs
      simp only [List.foldl_cons, List.length_cons]
      rw [ih (addToGroups gs r), sum_scores_addToGroups]
      omega

/-- The urls of the group list after one insertion: unchanged if the row's url is
already present, otherwise the row's url is appended. -/
theorem urls_addToGroups (gs : List Group) (r : Row) :
    (addToGroups gs r).map (fun g => g.url) =
      if r.url ∈ gs.map (fun g => g.url) then gs.map (fun g => g.url)
      else gs.map (fun g => g.url) ++ [r.url] := by
  induction gs with
  | nil => simp [addToGroups]
  | cons g gs ih =>
      by_cases h : r.url = g.url
      · simp [addToGroups, h]
      · by_cases hm : r.url ∈ gs.map (fun g => g.url)
        · simp [addToGroups, h, ih, hm]
        · simp [addToGroups, h, ih, hm]

/-- Folding rows preserves distinctness of group urls, and every group url comes
from the accumulator or from a row. -/
theorem urls_foldl_nodup (rows : List Row) :
    ∀ gs : List Group, (gs.map fun g => g.url).Nodup →
      (((rows.foldl addToGroups gs).map fun g => g.url).Nodup ∧
        ∀ u ∈ (rows.foldl addToGroups gs).map fun g => g.url,
          u ∈ (gs.map fun g => g.url) ∨ u ∈ rows.map Row.url) := by
  induction rows with
  | nil =>
      intro gs h
      exact ⟨h, fun u hu => Or.inl hu⟩
  | cons r rest ih =>
      intro gs h
      simp only [List.foldl_cons]
      have hnd : ((addToGroups gs r).map fun g => g.url).Nodup := by
        rw [urls_addToGroups]
        split
        · exact h
        · next hm => simp [List.nodup_append, h, hm]
      obtain ⟨h1, h2⟩ := ih (addToGroups gs r) hnd
      refine ⟨h1, ?_⟩
      intro u hu
      rcases h2 u hu with hin | hin
      · rw [urls_addToGroups] at hin
        split at hin
        · exact Or.inl hin
        · rcases List.mem_append.mp hin with hin | hin
          · exact Or.inl hin
          · simp only [List.mem_singleton] at hin
            subst hin
            exact Or.inr (by simp)
      · exact Or.inr (by simp [hin])

/-- C3: grouping yields at most one aggregate per distinct document url (the
aggregates' urls are pairwise distinct, so there are at most as many aggregates as
distinct urls among the fetched rows), and the match counts of the aggregates sum
to the number of fetched rows. -/
theorem c3_grouping (rows : List Row) :
    (((groupRows rows).map finalizeGroup).map ChunkItem.url).Nodup ∧
    ((groupRows rows).map finalizeGroup).length ≤ ((rows.map Row.url).dedup).length ∧
    (((groupRows rows).map finalizeGroup).map ChunkItem.match_count).sum = rows.length := by
  obtain ⟨hnd, hsub⟩ := urls_foldl_nodup rows [] (by simp)
  refine ⟨?_, ?_, ?_⟩
  · have hmap : (((groupRows rows).map finalizeGroup).map ChunkItem.url) =
        (groupRows rows).map fun g => g.url := by
      rw [List.map_map]
      rfl
    rw [hmap]
    exact hnd
  · have hsub' : ((groupRows rows).map fun g => g.url) ⊆ (rows.map Row.url).dedup := by
      intro u hu
      rcases hsub u hu with h | h
      · simp at h
      · exact List.mem_dedup.mpr h
    have hlen := (List.subperm_of_subset hnd hsub').length_le
    calc ((groupRows rows).map finalizeGroup).length
        = ((groupRows rows).map fun g => g.url).length := by simp
      _ ≤ _ := hlen
  · have hmap : (((groupRows rows).map finalizeGroup).map ChunkItem.match_count) =
        (groupRows rows).map fun g => g.scores.length := by
      rw [List.map_map]
      rfl
    rw [hmap]
    have := sum_scores_foldl rows []
    simpa [groupRows] using this

/-- A maximal index is within bounds for a nonempty score list. -/
theorem pyMaxIdx_lt_length : ∀ (l : List ℚ), l ≠ [] → pyMaxIdx l < l.length := by
  intro l
  induction l using pyMaxIdx.induct with
  | case1 => intro h; exact absurd rfl h
  | case2 s => intro _; simp [pyMaxIdx]
  | case3 s t rest hlt ih =>
      intro _
      rw [pyMaxIdx, if_pos hlt]
      have := ih (by simp)
      simp only [List.length_cons] at this ⊢
      omega
  | case4 s t rest hge ih =>
      intro _
      rw [pyMaxIdx, if_neg hge]
      simp

/-- The score at the chosen index dominates every score in the list. -/
theorem pyMaxIdx_is_max : ∀ (l : List ℚ) (j : Nat), j < l.length →
    l.getD j 0 ≤ l.getD (pyMaxIdx l) 0 := by
  intro l
  induction l using pyMaxIdx.induct with
  | case1 => intro j hj; simp at hj
  | case2 s =>
      intro j hj
      simp only [List.length_singleton] at hj
      have : j = 0 := by omega
      subst this
      simp [pyMaxIdx]
  | case3 s t rest hlt ih =>
      intro j hj
      rw [pyMaxIdx, if_pos hlt]
      rcases j with _ | j'
      · simpa using le_of_lt hlt
      · simp only [List.getD_cons_succ]
        exact ih j' (by simpa using hj)
  | case4 s t rest hge ih =>
      intro j hj
      rw [pyMaxIdx, if_neg hge]
      rcases j with _ | j'
      · simp
      · simp only [List.getD_cons_succ, List.getD_cons_zero]
        exact le_trans (ih j' (by simpa using hj)) (not_lt.mp hge)

/-- Every score strictly before the chosen index is strictly below the maximum:
Python's `max` keeps the first maximal element on an exact tie. -/
theorem pyMaxIdx_first : ∀ (l : List ℚ) (j : Nat), j < pyMaxIdx l →
    l.getD j 0 < l.getD (pyMaxIdx l) 0 := by
  intro l
  induction l using pyMaxIdx.induct with
  | case1 => intro j hj; simp [pyMaxIdx] at hj
  | case2 s => intro j hj; simp [pyMaxIdx] at hj
  | case3 s t rest hlt ih =>
      intro j hj
      rw [pyMaxIdx, if_pos hlt] at hj ⊢
      rcases j with _ | j'
      · simpa using hlt
      · simp only [List.getD_cons_succ]
        exact ih j' (by omega)
  | case4 s t rest hge ih =>
      intro j hj
      rw [pyMaxIdx, if_neg hge] at hj
      omega

/-- Folding rows that all carry the group's url appends their scores and chunks to
that single group. -/
theorem foldl_addToGroups_single :
    ∀ (rows : List Row) (g : Group), (∀ r ∈ rows, r.url = g.url) →
      rows.foldl addToGroups [g] =
        [⟨g.url, g.council_name, g.date, g.scores ++ rows.map scoreVal,
          g.chunks ++ rows.map Row.text_span⟩] := by
  intro rows
  induction rows with
  | nil => intro g _; simp
  | cons r rest ih =>
      intro g h
      have hr : r.url = g.url := h r (by simp)
      simp only [List.foldl_cons, addToGroups, if_pos hr]
      rw [ih ⟨g.url, g.council_name, g.date, g.scores ++ [scoreVal r],
        g.chunks ++ [r.text_span]⟩ (fun x hx => h x (by simp [hx]))]
      simp

/-- Grouping rows that all share one url yields exactly one group holding every
score and chunk in row order. -/
theorem groupRows_const_url (r : Row) (rest : List Row)
    (h : ∀ x ∈ rest, x.url = r.url) :
    groupRows (r :: rest) =
      [⟨r.url, r.council_name, r.date.map Date.isoformat,
        scoreVal r :: rest.map scoreVal, r.text_span :: rest.map Row.text_span⟩] := by
  unfold groupRows
  simp only [List.foldl_cons]
  rw [show addToGroups [] r =
    [⟨r.url, r.council_name, r.date.map Date.isoformat, [scoreVal r], [r.text_span]⟩] from rfl]
  rw [foldl_addToGroups_single rest _ (fun x hx => h x hx)]
  simp

/-- C1: a non-empty same-url row group produces a single aggregate whose match count
is the number of rows, whose score is the arithmetic mean of the rows' scores, and
whose representative chunk is the text span at an index that attains the maximal
score while every strictly earlier index scores strictly lower (an exact tie is won
by the earliest row in datastore order). -/
theorem c1_same_url_aggregate (r : Row) (rest : List Row)
    (h : ∀ x ∈ rest, x.url = r.url) :
    ∃ it : ChunkItem, (groupRows (r :: rest)).map finalizeGroup = [it] ∧
      it.match_count = (r :: rest).length ∧
      it.score = some ((((r :: rest).map scoreVal).sum) / (((r :: rest).length : ℚ))) ∧
      ∃ k, k < (r :: rest).length ∧
        it.chunk_text = some (((r :: rest).map Row.text_span).getD k "") ∧
        (∀ j, j < (r :: rest).length →
          ((r :: rest).map scoreVal).getD j 0 ≤ ((r :: rest).map scoreVal).getD k 0) ∧
        (∀ j, j < k → ((r :: rest).map scoreVal).getD j 0 <
          ((r :: rest).map scoreVal).getD k 0) := by
  rw [groupRows_const_url r rest h]
  simp only [List.map_cons, List.map_nil]
  refine ⟨_, rfl, ?_, ?_, ?_⟩
  · simp [finalizeGroup]
  · simp [finalizeGroup]
  · refine ⟨pyMaxIdx (scoreVal r :: rest.map scoreVal), ?_, ?_, ?_, ?_⟩
    · have := pyMaxIdx_lt_length (scoreVal r :: rest.map scoreVal) (by simp)
      simpa using this
    · simp [finalizeGroup]
    · intro j hj
      exact pyMaxIdx_is_max (scoreVal r :: rest.map scoreVal) j (by simpa using hj)
    · intro j hj
      exact pyMaxIdx_first (scoreVal r :: rest.map scoreVal) j hj

/-- Witness for C1 at the spec's scenario: two chunks of one document scoring 0.9
and 0.7 yield match_count 2, average score 0.8, and the 0.9-scoring chunk as the
representative text. -/
theorem c1_same_url_aggregate_witness :
    (∀ x ∈ [(⟨"u", "c", none, "lo", some (7/10)⟩ : Row)],
      x.url = (⟨"u", "c", none, "hi", some (9/10)⟩ : Row).url) ∧
    ∃ it : ChunkItem,
      (groupRows [⟨"u", "c", none, "hi", some (9/10)⟩,
        ⟨"u", "c", none, "lo", some (7/10)⟩]).map finalizeGroup = [it] ∧
      it.match_count = 2 ∧ it.score = some (4/5) ∧ it.chunk_text = some "hi" := by
  have h : ∀ x ∈ [(⟨"u", "c", none, "lo", some (7/10)⟩ : Row)],
      x.url = (⟨"u", "c", none, "hi", some (9/10)⟩ : Row).url := by
    intro x hx
    simp only [List.mem_singleton] at hx
    subst hx
    rfl
  refine ⟨h, ?_⟩
  obtain ⟨it, h1, h2, h3, k, hk, h4, h5, h6⟩ :=
    c1_same_url_aggregate ⟨"u", "c", none, "hi", some (9/10)⟩
      [⟨"u", "c", none, "lo", some (7/10)⟩] h
  refine ⟨it, h1, by simpa using h2, ?_, ?_⟩
  · rw [h3]
    norm_num [scoreVal]
  · have hk2 : k < 2 := by simpa using hk
    have hk0 : k = 0 := by
      by_contra hne
      have hk1 : k = 1 := by omega
      have := h6 0 (by omega)
      rw [hk1] at this
      norm_num [scoreVal] at this
    subst hk0
    simpa using h4

/-- C2: the list returned by the chunk path is sorted so that no earlier item has a
(match_count, average_score) pair lexicographically smaller than a later item's,
comparing match_count descending first and average_score descending second, with a
null score treated as 0.0 for the comparison. -/
theorem c2_ranking (req : SearchRequest) (v : List ℚ) (rows : List Row)
    (items : List ChunkItem) (tr : CallTrace)
    (h : search req (.ok v) (.ok rows) = (.ok items, tr)) :
    items.Pairwise (fun a b => ¬(a.match_count < b.match_count ∨
      (a.match_count = b.match_count ∧ pyOr a.score 0 < pyOr b.score 0))) := by
  by_cases hq : queryOk req
  · rw [search_eq_of_ok req v rows hq] at h
    have h1 : ((rankItems ((groupRows rows).map finalizeGroup)).take (finalTopK req).toNat)
        = items := by
      have := congrArg Prod.fst h
      simpa using this
    rw [← h1]
    have hs : (rankItems ((groupRows rows).map finalizeGroup)).Pairwise keyLE :=
      List.sorted_insertionSort keyLE _
    have hs2 : (rankItems ((groupRows rows).map finalizeGroup)).Pairwise
        (fun a b => ¬(a.match_count < b.match_count ∨
          (a.match_count = b.match_count ∧ pyOr a.score 0 < pyOr b.score 0))) := by
      refine hs.imp ?_
      intro a b hab
      rcases hab with hlt | ⟨heq, hle⟩
      · simp only [sortKey] at hlt
        rintro (hc | ⟨hc, _⟩)
        · omega
        · omega
      · simp only [sortKey] at heq hle
        have hmc : a.match_count = b.match_count := by omega
        have hsc : pyOr b.score 0 ≤ pyOr a.score 0 := by linarith
        rintro (hc | ⟨_, hc⟩)
        · omega
        · linarith
    exact hs2.sublist (List.take_sublist _ _)
  · unfold search at h
    rw [if_pos (not_not.mp hq)] at h
    have := congrArg Prod.fst h
    simp at this

/-- Witness for C2: three rows over two documents rank the 2-chunk document before
the higher-scoring 1-chunk document, and the returned list is sorted as claimed. -/
theorem c2_ranking_witness :
    ([⟨"b", "c", none, some "t1", some (1/2), 2⟩,
      ⟨"a", "c", none, some "t0", some 1, 1⟩] : List ChunkItem).Pairwise
      (fun a b => ¬(a.match_count < b.match_count ∨
        (a.match_count = b.match_count ∧ pyOr a.score 0 < pyOr b.score 0))) :=
  c2_ranking ⟨"q", some 2, none⟩ [1]
    [⟨"a", "c", none, "t0", some 1⟩, ⟨"b", "c", none, "t1", some 1⟩,
     ⟨"b", "c", none, "t2", some 0⟩] _ ⟨true, true, some 10⟩ (by
      rw [search_eq_of_ok _ _ _ (by decide)]
      norm_num [finalTopK, fetchLimit, SearchRequest.has_top_k, SearchRequest.top_k_value,
        groupRows, addToGroups, finalizeGroup, rankItems, List.insertionSort,
        List.orderedInsert, keyLE, sortKey, pyOr, pyMaxIdx, scoreVal, List.take])

/-- Counterexample for C8 as stated: a row whose datastore score is NULL is coerced
to 0.0 at ingestion (line 131) and that 0.0 is surfaced in the client-visible score
field of the aggregate, although the datastore score was null, not genuinely zero. -/
theorem c8_null_score_counterexample :
    (⟨"u", "c", none, "t", none⟩ : Row).score = none ∧
    (search ⟨"q", none, none⟩ (.ok [1]) (.ok [⟨"u", "c", none, "t", none⟩])).1 =
      .ok [⟨"u", "c", none, some "t", some 0, 1⟩] := by
  refine ⟨rfl, ?_⟩
  rw [search_eq_of_ok _ _ _ (by decide)]
  norm_num [finalTopK, SearchRequest.has_top_k, SearchRequest.top_k_value, groupRows,
    addToGroups, finalizeGroup, rankItems, List.insertionSort, keyLE, sortKey, pyOr,
    pyMaxIdx, scoreVal, List.take]

/-- Every group accumulated from rows holds at least one score. -/
theorem scores_ne_nil_addToGroups (gs : List Group) (r : Row)
    (h : ∀ g ∈ gs, g.scores ≠ []) : ∀ g ∈ addToGroups gs r, g.scores ≠ [] := by
  induction gs with
  | nil =>
      intro g hg
      simp only [addToGroups, List.mem_singleton] at hg
      subst hg
      simp
  | cons g0 gs ih =>
      intro g hg
      simp only [addToGroups] at hg
      split at hg
      · rcases List.mem_cons.mp hg with h1 | h1
        · subst h1
          simp
        · exact h g (by simp [h1])
      · rcases List.mem_cons.mp hg with h1 | h1
        · subst h1
          exact h g (by simp)
        · exact ih (fun x hx => h x (by simp [hx])) g h1

/-- Every group produced by `grouped_results` holds at least one score. -/
theorem scores_ne_nil_groupRows (rows : List Row) :
    ∀ g ∈ groupRows rows, g.scores ≠ [] := by
  suffices hgen : ∀ (rs : List Row) (gs : List Group), (∀ g ∈ gs, g.scores ≠ []) →
      ∀ g ∈ rs.foldl addToGroups gs, g.scores ≠ [] by
    exact hgen rows [] (by simp)
  intro rs
  induction rs with
  | nil =>
      intro gs h
      simpa using h
  | cons r rest ih =>
      intro gs h
      simp only [List.foldl_cons]
      exact ih _ (scores_ne_nil_addToGroups gs r h)

/-- C8 amended: a null datastore score is coerced to 0.0 already at ingestion, so it
contributes 0.0 to the average and to the ranking comparison and can be surfaced as
0.0; the aggregate score field is emitted as null exactly when match_count is 0
(line 158), and every produced aggregate has match_count at least 1, so its score is
never null. -/
theorem c8_amended_null_scores (rows : List Row) :
    (∀ g : Group, ((finalizeGroup g).score = none ↔ (finalizeGroup g).match_count = 0)) ∧
    (∀ it ∈ (groupRows rows).map finalizeGroup, 1 ≤ it.match_count ∧ it.score ≠ none) ∧
    (∀ r : Row, r.score = none → scoreVal r = 0) := by
  refine ⟨?_, ?_, ?_⟩
  · intro g
    simp only [finalizeGroup]
    by_cases h : g.scores.length = 0
    · simp [h]
    · simp [h]
  · intro it hit
    obtain ⟨g, hg, rfl⟩ := List.mem_map.mp hit
    have hne := scores_ne_nil_groupRows rows g hg
    have hlen : g.scores.length ≠ 0 := by
      intro h0
      exact hne (List.length_eq_zero.mp h0)
    constructor
    · simp only [finalizeGroup]
      omega
    · simp [finalizeGroup, hlen]
  · intro r hr
    simp [scoreVal, hr]

/-- Witness for the amended C8: a produced aggregate has positive match count and a
non-null score, and a null-scored row is coerced to score 0. -/
theorem c8_amended_null_scores_witness :
    (1 ≤ (⟨"u", "c", none, some "t", some 1, 1⟩ : ChunkItem).match_count ∧
      (⟨"u", "c", none, some "t", some 1, 1⟩ : ChunkItem).score ≠ none) ∧
    scoreVal ⟨"u", "c", none, "t", none⟩ = 0 :=
  ⟨(c8_amended_null_scores [⟨"u", "c", none, "t", some 1⟩]).2.1
      ⟨"u", "c", none, some "t", some 1, 1⟩ (by
        norm_num [groupRows, addToGroups, finalizeGroup, scoreVal, pyMaxIdx]),
   (c8_amended_null_scores []).2.2 ⟨"u", "c", none, "t", none⟩ rfl⟩

/-- Counterexample for C10 as stated: when every pseudo-random draw is 0 the norm is
0, the guard divides by 1.0, and the output vector is the zero vector, whose
Euclidean norm is 0, not 1. -/
theorem c10_zero_draw_counterexample :
    SimpleLocalEmbed.embed 1536 (fun _ _ => 0) ["x"] = [List.replicate 1536 (0 : ℝ)] ∧
    Real.sqrt ((((List.replicate 1536 (0 : ℝ)).map fun x => x * x)).sum) = 0 ∧
    (0 : ℝ) ≠ 1 := by
  have hvec : (List.range 1536).map (fun _ => (0 : ℝ)) = List.replicate 1536 (0 : ℝ) := by
    rw [List.map_const', List.length_range]
  have hsq : ((List.replicate 1536 (0 : ℝ)).map fun x => x * x) =
      List.replicate 1536 (0 : ℝ) := by
    rw [List.map_replicate, mul_zero]
  refine ⟨?_, ?_, by norm_num⟩
  · simp only [SimpleLocalEmbed.embed, embedOne, List.map_cons, List.map_nil]
    rw [hvec, hsq, List.sum_replicate, smul_zero, Real.sqrt_zero, if_pos rfl]
    rw [List.map_replicate, zero_div]
  · rw [hsq, List.sum_replicate, smul_zero, Real.sqrt_zero]

/-- C10 amended: `SimpleLocalEmbed.embed` returns one vector per text in order, each
with exactly `dim` components; each output vector has unit Euclidean norm whenever
the drawn pre-normalization vector is nonzero, while an all-zero draw passes through
the guarded divisor 1.0 unchanged; the guarded divisor is never 0, so the division
is total. -/
theorem c10_embed_normalized (dim : Nat) (gen : String → Nat → ℝ) (texts : List String) :
    (SimpleLocalEmbed.embed dim gen texts).length = texts.length ∧
    (∀ i, i < texts.length → (SimpleLocalEmbed.embed dim gen texts).getD i [] =
      embedOne dim gen (texts.getD i "")) ∧
    (∀ t, (embedOne dim gen t).length = dim) ∧
    (∀ t, Real.sqrt (((((List.range dim).map (gen t)).map fun x => x * x)).sum) ≠ 0 →
      Real.sqrt (((embedOne dim gen t).map fun x => x * x).sum) = 1) ∧
    (∀ t, Real.sqrt (((((List.range dim).map (gen t)).map fun x => x * x)).sum) = 0 →
      embedOne dim gen t = (List.range dim).map (gen t)) ∧
    (∀ t, (if Real.sqrt (((((List.range dim).map (gen t)).map fun x => x * x)).sum) = 0
        then (1 : ℝ)
        else Real.sqrt (((((List.range dim).map (gen t)).map fun x => x * x)).sum)) ≠ 0) := by
  refine ⟨by simp [SimpleLocalEmbed.embed], ?_, ?_, ?_, ?_, ?_⟩
  · intro i hi
    simp only [SimpleLocalEmbed.embed, List.getD_eq_getElem?_getD, List.getElem?_map,
      List.getElem?_eq_getElem hi]
    simp
  · intro t
    simp [embedOne]
  · intro t hne
    have hS0 : 0 ≤ ((((List.range dim).map (gen t)).map fun x => x * x)).sum := by
      apply List.sum_nonneg
      intro x hx
      obtain ⟨y, hy, rfl⟩ := List.mem_map.mp hx
      exact mul_self_nonneg y
    have hSne : ((((List.range dim).map (gen t)).map fun x => x * x)).sum ≠ 0 := by
      intro h0
      exact hne (by rw [h0, Real.sqrt_zero])
    have hnn := Real.mul_self_sqrt hS0
    simp only [embedOne]
    rw [if_neg hne, List.map_map]
    have hmap : (((List.range dim).map (gen t)).map
        ((fun x => x * x) ∘ fun x =>
          x / Real.sqrt (((((List.range dim).map (gen t)).map fun x => x * x)).sum))) =
        ((List.range dim).map (gen t)).map (fun x => (x * x) *
          (Real.sqrt (((((List.range dim).map (gen t)).map fun x => x * x)).sum) *
           Real.sqrt (((((List.range dim).map (gen t)).map fun x => x * x)).sum))⁻¹) := by
      apply List.map_congr_left
      intro x _
      simp only [Function.comp_apply]
      rw [div_mul_div_comm, div_eq_mul_inv]
    rw [hmap, List.sum_map_mul_right, hnn, mul_inv_cancel₀ hSne, Real.sqrt_one]
  · intro t h0
    simp only [embedOne]
    rw [if_pos h0]
    simp
  · intro t
    split
    · norm_num
    · next h => exact h

/-- Witness for the amended C10 at dimension 1 with every draw equal to 1: the drawn
vector is nonzero and the normalized output has unit Euclidean norm. -/
theorem c10_embed_normalized_witness :
    Real.sqrt (((((List.range 1).map ((fun _ _ => (1:ℝ)) "x")).map fun x => x * x)).sum) ≠ 0 ∧
    Real.sqrt (((embedOne 1 (fun _ _ => (1:ℝ)) "x").map fun x => x * x).sum) = 1 := by
  have hne : Real.sqrt (((((List.range 1).map ((fun _ _ => (1:ℝ)) "x")).map
      fun x => x * x)).sum) ≠ 0 := by
    rw [show List.range 1 = [0] from rfl]
    norm_num [Real.sqrt_one]
  exact ⟨hne, (c10_embed_normalized 1 (fun _ _ => 1) ["x"]).2.2.2.1 "x" hne⟩

end GovRag
